import Mathlib

/-!
# Verification of the `tensor-logic` SPA server (src/backend/tensor-logic/src/main.rs)

The program is an axum `Router` composed of
* `nest_service("/assets", ServeDir::new("dist/assets"))` — static assets, and
* `fallback(get(serve_index))` — the SPA entry-document handler, where
  `serve_index` reads `dist/index.html` with `tokio::fs::read_to_string` and
  returns either `Html(content)` or `Html("<h1>Error: index.html not found</h1>")`,
wrapped in a `TraceLayer` (logging only, no behavioural effect; not modelled).

The embedding below models the filesystem as a finite map from paths (lists of
components, relative to the working directory) to entries, and each handler as
a small free-monadic program over filesystem operations so that the operation
trace (reads/writes) of a request is itself an object of the model.  Response
bodies are modelled at the byte level: a Rust `String`'s UTF-8 bytes are
exactly the bytes that were read when `read_to_string` succeeds, so the body of
`Html(content)` is the byte content of the file.

Library semantics embedded from the frameworks the source configures:
* axum `Router.fallback` is NOT inherited by `nest_service`: a request whose
  path matches the nested `/assets` prefix is answered entirely by `ServeDir`,
  including its 404 for a missing file.
* axum `routing::get(h)` routes GET to `h`, routes HEAD to `h` with the
  response body stripped, and answers every other method with
  405 Method Not Allowed.
* tower-http `ServeDir` answers only GET/HEAD (405 otherwise), validates the
  request path component by component (empty and `.` components are skipped,
  `..` and other non-normal components reject the request with 404), resolves
  it under its root, serves a regular file with a content type inferred from
  the extension, appends `index.html` for a directory, answers 404 when the
  resolved entry does not exist, and 500 when the file exists but an I/O error
  other than not-found occurs (modelled by the `readable` flag).
  Conditional/range request headers are outside the modelled fragment: the
  model covers unconditional full-file requests.
* axum `Html` responds with status 200 and content type
  `text/html; charset=utf-8`.
-/

namespace TensorLogic

/-- A filesystem entry: a regular file with byte contents (`readable = false`
models a file whose open/read fails with an I/O error other than not-found,
e.g. a permission error), or a directory. -/
inductive Entry : Type where
  | file (bytes : List Nat) (readable : Bool)
  | dir
deriving DecidableEq, Repr

/-- The filesystem: an association list from paths (component lists relative
to the server's working directory) to entries. -/
structure Fs : Type where
  entries : List (List String × Entry)
deriving DecidableEq, Repr

/-- Look up the entry at a path. -/
def Fs.lookup (fs : Fs) (p : List String) : Option Entry :=
  (fs.entries.find? (fun e => e.1 == p)).map (fun e => e.2)

/-- Overwrite (or create) the entry at a path. -/
def Fs.writeFile (fs : Fs) (p : List String) (bs : List Nat) : Fs :=
  ⟨(p, Entry.file bs true) :: fs.entries.filter (fun e => e.1 != p)⟩

/-- A filesystem operation, as recorded in a request's trace. -/
inductive FsOp : Type where
  | read (p : List String)
  | write (p : List String) (bytes : List Nat)
deriving DecidableEq, Repr

/-- `true` iff the operation is a read (not a write). -/
def FsOp.isRead : FsOp → Bool
  | .read _ => true
  | .write _ _ => false

/-- A program over the filesystem, free-monad style: it can open-and-read the
entry at a path (observing `none` when nothing exists there), or write a file.
Handlers of the server are embedded as such programs so that their operation
traces can be reasoned about. -/
inductive FsProg (α : Type) : Type where
  | pure (a : α)
  | openRead (p : List String) (k : Option Entry → FsProg α)
  | writeF (p : List String) (bytes : List Nat) (k : FsProg α)

/-- Run a program against a filesystem, returning its result, the final
filesystem, and the trace of operations performed, in order. -/
def runFs {α : Type} : FsProg α → Fs → α × Fs × List FsOp
  | .pure a, fs => (a, fs, [])
  | .openRead p k, fs =>
      let r := runFs (k (fs.lookup p)) fs
      (r.1, r.2.1, FsOp.read p :: r.2.2)
  | .writeF p bs k, fs =>
      let r := runFs k (fs.writeFile p bs)
      (r.1, r.2.1, FsOp.write p bs :: r.2.2)

/-- Continuation-bound UTF-8 validation, byte level: accepts exactly the byte
sequences Rust's `str::from_utf8` (hence `tokio::fs::read_to_string`) accepts
(RFC 3629 shortest-form encodings of scalar values, surrogates excluded). -/
def utf8Cont (b : Nat) : Bool := 0x80 ≤ b && b ≤ 0xBF

/-- UTF-8 validity of a byte sequence, as checked by Rust's `str::from_utf8`. -/
def utf8Valid : List Nat → Bool
  | [] => true
  | b :: rest =>
    if b ≤ 0x7F then utf8Valid rest
    else if 0xC2 ≤ b && b ≤ 0xDF then
      match rest with
      | c1 :: r => utf8Cont c1 && utf8Valid r
      | [] => false
    else if b = 0xE0 then
      match rest with
      | c1 :: c2 :: r => (0xA0 ≤ c1 && c1 ≤ 0xBF) && utf8Cont c2 && utf8Valid r
      | _ => false
    else if (0xE1 ≤ b && b ≤ 0xEC) || b = 0xEE || b = 0xEF then
      match rest with
      | c1 :: c2 :: r => utf8Cont c1 && utf8Cont c2 && utf8Valid r
      | _ => false
    else if b = 0xED then
      match rest with
      | c1 :: c2 :: r => (0x80 ≤ c1 && c1 ≤ 0x9F) && utf8Cont c2 && utf8Valid r
      | _ => false
    else if b = 0xF0 then
      match rest with
      | c1 :: c2 :: c3 :: r =>
          (0x90 ≤ c1 && c1 ≤ 0xBF) && utf8Cont c2 && utf8Cont c3 && utf8Valid r
      | _ => false
    else if 0xF1 ≤ b && b ≤ 0xF3 then
      match rest with
      | c1 :: c2 :: c3 :: r =>
          utf8Cont c1 && utf8Cont c2 && utf8Cont c3 && utf8Valid r
      | _ => false
    else if b = 0xF4 then
      match rest with
      | c1 :: c2 :: c3 :: r =>
          (0x80 ≤ c1 && c1 ≤ 0x8F) && utf8Cont c2 && utf8Cont c3 && utf8Valid r
      | _ => false
    else false

/-- The UTF-8 encoding of one character (standard 1–4 byte encoding of its
scalar value). -/
def charUtf8 (c : Char) : List Nat :=
  let n := c.toNat
  if n < 0x80 then [n]
  else if n < 0x800 then [0xC0 + n / 0x40, 0x80 + n % 0x40]
  else if n < 0x10000 then
    [0xE0 + n / 0x1000, 0x80 + n / 0x40 % 0x40, 0x80 + n % 0x40]
  else
    [0xF0 + n / 0x40000, 0x80 + n / 0x1000 % 0x40, 0x80 + n / 0x40 % 0x40,
     0x80 + n % 0x40]

/-- The UTF-8 bytes of a string (used to state byte-level body equalities for
the ASCII/HTML literals appearing in the source). -/
def strBytes (s : String) : List Nat :=
  s.data.flatMap charUtf8

/-- HTTP method. -/
inductive Method : Type where
  | GET | HEAD | POST | PUT | DELETE | PATCH | OPTIONS
deriving DecidableEq, Repr

/-- An HTTP request: method, path as a list of decoded non-empty segments
(`/assets/app.js` is `["assets", "app.js"]`), plus query and headers, which the
modelled fragment of the server never inspects. -/
structure Request : Type where
  method : Method
  path : List String
  query : Option String := none
  headers : List (String × String) := []
deriving DecidableEq, Repr

/-- An HTTP response: status code, optional content type, body bytes. -/
structure Response : Type where
  status : Nat
  contentType : Option String
  body : List Nat
deriving DecidableEq, Repr

/-- The path of the entry document read by `serve_index`:
`PathBuf::from("dist/index.html")`. -/
def indexPath : List String := ["dist", "index.html"]

/-- The error body produced by `serve_index` when the read fails. -/
def errorBody : List Nat := strBytes "<h1>Error: index.html not found</h1>"

/-- Content type of an axum `Html` response. -/
def htmlContentType : String := "text/html; charset=utf-8"

/-- `serve_index` as a filesystem program, translated from the source:
```
let index_path = PathBuf::from("dist/index.html");
match tokio::fs::read_to_string(&index_path).await {
    Ok(content) => Html(content),
    Err(_) => Html("<h1>Error: index.html not found</h1>".to_string()),
}
```
`read_to_string` is one filesystem read; it succeeds iff the path holds a
readable regular file whose bytes are valid UTF-8, and the resulting string's
bytes are the file's bytes. -/
def serve_index_prog : FsProg Response :=
  .openRead indexPath (fun r =>
    match r with
    | some (Entry.file bs true) =>
        if utf8Valid bs then
          .pure { status := 200, contentType := some htmlContentType, body := bs }
        else
          .pure { status := 200, contentType := some htmlContentType, body := errorBody }
    | _ =>
        .pure { status := 200, contentType := some htmlContentType, body := errorBody })

/-- The result of one `serve_index` invocation on a given filesystem. -/
def serve_index (fs : Fs) : Response :=
  (runFs serve_index_prog fs).1

/-- `ServeDir`'s 404 Not Found response (empty body). -/
def notFoundResponse : Response := { status := 404, contentType := none, body := [] }

/-- 405 Method Not Allowed (empty body; the `Allow` header is not modelled). -/
def methodNotAllowed : Response := { status := 405, contentType := none, body := [] }

/-- `ServeDir`'s 500 response for an I/O error other than not-found. -/
def internalErrorResponse : Response :=
  { status := 500, contentType := none, body := [] }

/-- The extension of a file name: the part after the last dot, empty when the
name contains no dot. -/
def extOf (name : String) : String :=
  match name.splitOn "." with
  | [] => ""
  | [_] => ""
  | parts => (parts.getLast?).getD ""

/-- Content type inferred from a file extension, as `ServeDir` does via
`mime_guess`; representative table, `application/octet-stream` default. -/
def mimeFromExt (ext : String) : String :=
  if ext = "html" then "text/html"
  else if ext = "js" then "application/javascript"
  else if ext = "css" then "text/css"
  else if ext = "json" then "application/json"
  else if ext = "svg" then "image/svg+xml"
  else if ext = "png" then "image/png"
  else if ext = "woff2" then "font/woff2"
  else "application/octet-stream"

/-- Content type for the file at a resolved path (extension of its last
component). -/
def mimeFor (p : List String) : String :=
  mimeFromExt (extOf ((p.getLast?).getD ""))

/-- `ServeDir`'s request-path validation (`build_and_validate_path`): empty
and `.` components are skipped, a `..` (parent-dir) or root component rejects
the whole path, normal components are kept in order.  (Percent-decoding and
Windows prefix components are outside the modelled fragment: request paths are
given as already-decoded segments.) -/
def validateComponents : List String → Option (List String)
  | [] => some []
  | c :: rest =>
    if c = "" || c = "." then validateComponents rest
    else if c = ".." then none
    else (validateComponents rest).map (fun cs => c :: cs)

/-- Strip the response body for a HEAD request, keeping status and headers. -/
def headAdjust (m : Method) (r : Response) : Response :=
  if m = Method.HEAD then { r with body := [] } else r

/-- tower-http `ServeDir::new(base)` serving a request whose remaining path
(after the nest prefix is stripped) is `reqPath`: only GET/HEAD are accepted
(405 otherwise); the validated components are resolved under `base`; a
readable regular file is served with status 200 and an extension-inferred
content type; a directory falls back to its `index.html`
(`append_index_html_on_directories` default); a missing entry yields 404; a
file whose read fails with an error other than not-found yields 500. -/
def serveDirProg (base : List String) (reqPath : List String) (m : Method) :
    FsProg Response :=
  if m = Method.GET || m = Method.HEAD then
    match validateComponents reqPath with
    | none => .pure notFoundResponse
    | some comps =>
      .openRead (base ++ comps) (fun e =>
        match e with
        | some (Entry.file bs true) =>
            .pure (headAdjust m
              { status := 200, contentType := some (mimeFor (base ++ comps)),
                body := bs })
        | some (Entry.file _ false) => .pure internalErrorResponse
        | some Entry.dir =>
            .openRead (base ++ comps ++ ["index.html"]) (fun e2 =>
              match e2 with
              | some (Entry.file bs true) =>
                  .pure (headAdjust m
                    { status := 200,
                      contentType :=
                        some (mimeFor (base ++ comps ++ ["index.html"])),
                      body := bs })
              | some (Entry.file _ false) => .pure internalErrorResponse
              | _ => .pure notFoundResponse)
        | none => .pure notFoundResponse)
  else .pure methodNotAllowed

/-- Map a function over a program's result. -/
def FsProg.map {α β : Type} (f : α → β) : FsProg α → FsProg β
  | .pure a => .pure (f a)
  | .openRead p k => .openRead p (fun r => FsProg.map f (k r))
  | .writeF p bs k => .writeF p bs (FsProg.map f k)

/-- The router's fallback, `fallback(get(serve_index))`: axum's
`routing::get` runs the handler for GET, runs it with the body stripped for
HEAD, and answers every other method with 405 Method Not Allowed. -/
def fallbackProg (m : Method) : FsProg Response :=
  if m = Method.GET then serve_index_prog
  else if m = Method.HEAD then
    FsProg.map (headAdjust Method.HEAD) serve_index_prog
  else .pure methodNotAllowed

/-- The assets root configured in `main`: `static_dir.join("assets")` with
`static_dir = PathBuf::from("dist")`. -/
def assetsRoot : List String := ["dist", "assets"]

/-- The router of `main`:
`Router::new().nest_service("/assets", ServeDir::new(dist/assets)).fallback(get(serve_index))`.
A request whose first path segment is `assets` is answered entirely by the
nested `ServeDir` (axum fallbacks are not inherited by `nest_service`); every
other request goes to the fallback method router.  The `TraceLayer` only logs
and is not modelled. -/
def routerProg (req : Request) : FsProg Response :=
  match req.path with
  | a :: rest =>
      if a = "assets" then serveDirProg assetsRoot rest req.method
      else fallbackProg req.method
  | [] => fallbackProg req.method

/-- Handle one request: response, filesystem afterwards, operation trace. -/
def handle (fs : Fs) (req : Request) : Response × Fs × List FsOp :=
  runFs (routerProg req) fs

/-- The response of the server to a request under a given filesystem. -/
def route (fs : Fs) (req : Request) : Response :=
  (handle fs req).1

/-- The result of `tokio::fs::read_to_string("dist/index.html")` on a given
filesystem, at the byte level: `some` of the file's bytes iff the path holds a
readable regular file with valid UTF-8 contents (a Rust `String`'s bytes are
the bytes read), `none` (an `Err`) otherwise. -/
def readIndex (fs : Fs) : Option (List Nat) :=
  match fs.lookup indexPath with
  | some (Entry.file bs true) => if utf8Valid bs then some bs else none
  | _ => none

/-- The successful `serve_index` response carrying the entry document. -/
def indexOkResponse (bs : List Nat) : Response :=
  { status := 200, contentType := some htmlContentType, body := bs }

/-- The `serve_index` response when the entry document cannot be read. -/
def indexErrorResponse : Response :=
  { status := 200, contentType := some htmlContentType, body := errorBody }

/-- `true` iff the request is matched by the nested `/assets` route. -/
def isAssetRequest (req : Request) : Bool :=
  req.path.head? == some "assets"

section HelperLemmas

theorem serve_index_eq (fs : Fs) :
    serve_index fs =
      match readIndex fs with
      | some bs => indexOkResponse bs
      | none => indexErrorResponse := by
  unfold serve_index serve_index_prog readIndex runFs indexOkResponse indexErrorResponse
  rcases fs.lookup indexPath with _ | e
  · rfl
  · rcases e with ⟨bs, rd⟩ | _
    · cases rd
      · rfl
      · by_cases h : utf8Valid bs <;> simp [h, runFs]
    · rfl

theorem runFs_map {α β : Type} (f : α → β) (p : FsProg α) (fs : Fs) :
    runFs (FsProg.map f p) fs =
      (f (runFs p fs).1, (runFs p fs).2.1, (runFs p fs).2.2) := by
  induction p generalizing fs with
  | pure a => rfl
  | openRead q k ih => simp [FsProg.map, runFs, ih]
  | writeF q bs k ih => simp [FsProg.map, runFs, ih]

theorem routerProg_fallback (req : Request)
    (h : isAssetRequest req = false) :
    routerProg req = fallbackProg req.method := by
  unfold routerProg
  rcases hp : req.path with _ | ⟨a, rest⟩
  · rfl
  · have : ¬ a = "assets" := by
      intro ha
      rw [isAssetRequest, hp, ha] at h
      simp at h
    simp [this]

theorem route_fallback_get (fs : Fs) (req : Request)
    (h : isAssetRequest req = false) (hm : req.method = Method.GET) :
    route fs req = serve_index fs := by
  unfold route handle
  rw [routerProg_fallback req h, fallbackProg, hm, if_pos rfl]
  rfl

end HelperLemmas

/-- Programs that perform no write operation (every node is a `pure` or an
`openRead`). -/
inductive ReadOnly : {α : Type} → FsProg α → Prop where
  | pure {α : Type} (a : α) : ReadOnly (FsProg.pure a)
  | openRead {α : Type} (p : List String) (k : Option Entry → FsProg α)
      (h : ∀ r, ReadOnly (k r)) : ReadOnly (FsProg.openRead p k)

section ReadOnlyLemmas

theorem runFs_readOnly {α : Type} {p : FsProg α} (hp : ReadOnly p) (fs : Fs) :
    (runFs p fs).2.1 = fs ∧ ((runFs p fs).2.2).all FsOp.isRead = true := by
  induction hp generalizing fs with
  | pure a => simp [runFs]
  | openRead q k h ih => simpa [runFs, FsOp.isRead] using ih _ fs

theorem serve_index_prog_readOnly : ReadOnly serve_index_prog := by
  unfold serve_index_prog
  refine ReadOnly.openRead _ _ (fun r => ?_)
  rcases r with _ | e
  · exact ReadOnly.pure _
  · rcases e with ⟨bs, rd⟩ | _
    · cases rd
      · exact ReadOnly.pure _
      · dsimp only
        split <;> exact ReadOnly.pure _
    · exact ReadOnly.pure _

theorem readOnly_map {α β : Type} (f : α → β) {p : FsProg α}
    (hp : ReadOnly p) : ReadOnly (FsProg.map f p) := by
  induction hp with
  | pure a => exact ReadOnly.pure _
  | openRead q k h ih => exact ReadOnly.openRead _ _ ih

theorem serveDirProg_readOnly (base reqPath : List String) (m : Method) :
    ReadOnly (serveDirProg base reqPath m) := by
  unfold serveDirProg
  split
  · rcases validateComponents reqPath with _ | comps
    · exact ReadOnly.pure _
    · refine ReadOnly.openRead _ _ (fun r => ?_)
      rcases r with _ | e
      · exact ReadOnly.pure _
      · rcases e with ⟨bs, rd⟩ | _
        · cases rd <;> exact ReadOnly.pure _
        · refine ReadOnly.openRead _ _ (fun r2 => ?_)
          rcases r2 with _ | e2
          · exact ReadOnly.pure _
          · rcases e2 with ⟨bs2, rd2⟩ | _
            · cases rd2 <;> exact ReadOnly.pure _
            · exact ReadOnly.pure _
  · exact ReadOnly.pure _

theorem fallbackProg_readOnly (m : Method) : ReadOnly (fallbackProg m) := by
  unfold fallbackProg
  split
  · exact serve_index_prog_readOnly
  · split
    · exact readOnly_map _ serve_index_prog_readOnly
    · exact ReadOnly.pure _

theorem routerProg_readOnly (req : Request) : ReadOnly (routerProg req) := by
  unfold routerProg
  rcases req.path with _ | ⟨a, rest⟩
  · exact fallbackProg_readOnly _
  · dsimp only
    split
    · exact serveDirProg_readOnly _ _ _
    · exact fallbackProg_readOnly _

theorem handle_fs_unchanged (fs : Fs) (req : Request) :
    (handle fs req).2.1 = fs :=
  (runFs_readOnly (routerProg_readOnly req) fs).1

theorem handle_fallback_get_trace (fs : Fs) (req : Request)
    (h : isAssetRequest req = false) (hm : req.method = Method.GET) :
    (handle fs req).2.2 = [FsOp.read indexPath] := by
  unfold handle
  rw [routerProg_fallback req h, fallbackProg, hm, if_pos rfl]
  unfold serve_index_prog runFs
  rcases fs.lookup indexPath with _ | e
  · rfl
  · rcases e with ⟨bs, rd⟩ | _
    · cases rd
      · rfl
      · by_cases hv : utf8Valid bs <;> simp [hv, runFs]
    · rfl

end ReadOnlyLemmas

/-! Concrete filesystem fixtures used by counterexamples and witnesses. -/

/-- A well-formed deployment: entry document present, one asset file, the
expected directories, and a file outside the assets root. -/
def fsOk : Fs := ⟨[
  (indexPath, Entry.file (strBytes "<html>ok</html>") true),
  (["dist", "assets", "app.js"], Entry.file (strBytes "console.log(1);") true),
  (["dist", "assets"], Entry.dir),
  (["dist"], Entry.dir),
  (["secret.txt"], Entry.file (strBytes "top") true)
]⟩

/-- An empty filesystem: the entry document is absent. -/
def fsNoIndex : Fs := ⟨[]⟩

/-- A filesystem whose entry document exists, is readable, but holds bytes
that are not valid UTF-8 (`0xFF` can occur in no UTF-8 sequence). -/
def fsBadIndex : Fs := ⟨[(indexPath, Entry.file [0xFF] true)]⟩

/-! ## Claims -/

/-- C1, counterexample: on a filesystem whose entry document is
`<html>ok</html>` and where `dist/assets/missing.js` does not exist,
`GET /assets/missing.js` is answered with the asset route's 404 and not with
the fallback handler's response — the claimed fall-through does not happen
(axum fallbacks are not inherited by `nest_service`). -/
theorem missing_asset_counterexample :
    (route fsOk { method := Method.GET, path := ["assets", "missing.js"] }).status = 404 ∧
    route fsOk { method := Method.GET, path := ["assets", "missing.js"] } ≠
      serve_index fsOk := by
  decide

/-- C1, amended: for every `GET /assets/<path>` whose validated path resolves
to a location with no filesystem entry, the asset route itself answers 404
Not Found (empty body); the request does not fall through to the fallback
handler and the entry document is not returned. -/
theorem missing_asset_404_no_fallthrough (fs : Fs) (rest comps : List String)
    (q : Option String) (hs : List (String × String))
    (hv : validateComponents rest = some comps)
    (hm : fs.lookup (assetsRoot ++ comps) = none) :
    route fs { method := Method.GET, path := "assets" :: rest,
               query := q, headers := hs } = notFoundResponse := by
  unfold route handle routerProg
  dsimp only
  rw [if_pos rfl]
  unfold serveDirProg
  simp [hv, hm, runFs]

/-- C1 witness: the amended theorem applied to the concrete missing asset. -/
theorem missing_asset_404_no_fallthrough_witness :
    route fsOk { method := Method.GET, path := ["assets", "missing.js"],
                 query := none, headers := [] } = notFoundResponse :=
  missing_asset_404_no_fallthrough fsOk ["missing.js"] ["missing.js"] none []
    (by decide) (by decide)

/-- C2: whenever the entry document cannot be read by the fallback handler
(missing file, directory in its place, unreadable file, i.e. `readIndex`
fails), every fallback-eligible GET request is answered with status 200,
content type `text/html; charset=utf-8`, and body exactly
`<h1>Error: index.html not found</h1>` — never a 500 or a transport failure
(the handler is total: it always produces this response). -/
theorem entry_unreadable_recovered_200 (fs : Fs) (req : Request)
    (ha : isAssetRequest req = false) (hm : req.method = Method.GET)
    (hr : readIndex fs = none) :
    route fs req = indexErrorResponse := by
  rw [route_fallback_get fs req ha hm, serve_index_eq, hr]

/-- C2 witness: `GET /` on the empty filesystem yields the error document. -/
theorem entry_unreadable_recovered_200_witness :
    route fsNoIndex { method := Method.GET, path := [] } = indexErrorResponse :=
  entry_unreadable_recovered_200 fsNoIndex { method := Method.GET, path := [] }
    (by decide) rfl (by decide)

/-- C3: for every path not under `/assets`, when the entry document is
readable (the handler's `read_to_string` succeeds, yielding bytes `bs`),
`GET` of that path returns status 200 with body exactly the current contents
of `dist/index.html` and content type `text/html; charset=utf-8`. -/
theorem fallback_serves_index_contents (fs : Fs) (req : Request)
    (bs : List Nat) (ha : isAssetRequest req = false)
    (hm : req.method = Method.GET) (hr : readIndex fs = some bs) :
    route fs req = indexOkResponse bs := by
  rw [route_fallback_get fs req ha hm, serve_index_eq, hr]

/-- C3 witness: `GET /some/spa/route` returns the `<html>ok</html>` entry
document. -/
theorem fallback_serves_index_contents_witness :
    route fsOk { method := Method.GET, path := ["some", "spa", "route"] } =
      indexOkResponse (strBytes "<html>ok</html>") :=
  fallback_serves_index_contents fsOk
    { method := Method.GET, path := ["some", "spa", "route"] }
    (strBytes "<html>ok</html>") (by decide) rfl (by decide)

/-- C4: for every existing readable regular file under the assets root whose
request path consists of normal components, `GET /assets/<path>` returns
status 200 with body byte-identical to the file's contents and a content type
inferred from the file's extension. -/
theorem asset_file_served_byte_identical (fs : Fs) (comps : List String)
    (bs : List Nat) (q : Option String) (hs : List (String × String))
    (hv : validateComponents comps = some comps)
    (hf : fs.lookup (assetsRoot ++ comps) = some (Entry.file bs true)) :
    route fs { method := Method.GET, path := "assets" :: comps,
               query := q, headers := hs } =
      { status := 200, contentType := some (mimeFor (assetsRoot ++ comps)),
        body := bs } := by
  unfold route handle routerProg
  dsimp only
  rw [if_pos rfl]
  unfold serveDirProg
  simp [hv, hf, runFs, headAdjust]

/-- C4 witness: `GET /assets/app.js` serves `console.log(1);` with the
JavaScript content type. -/
theorem asset_file_served_byte_identical_witness :
    route fsOk { method := Method.GET, path := ["assets", "app.js"],
                 query := none, headers := [] } =
      { status := 200,
        contentType := some (mimeFor (assetsRoot ++ ["app.js"])),
        body := strBytes "console.log(1);" } :=
  asset_file_served_byte_identical fsOk ["app.js"]
    (strBytes "console.log(1);") none [] (by decide) (by decide)

/-- C5, counterexample: a `POST` to a fallback-eligible path is rejected with
405 Method Not Allowed (empty body), not answered with the entry document:
the fallback is `get(serve_index)`, whose method router rejects non-GET/HEAD
methods. -/
theorem fallback_post_rejected_405 :
    route fsOk { method := Method.POST, path := ["some", "spa", "route"] } =
      methodNotAllowed ∧
    (route fsOk { method := Method.POST, path := ["some", "spa", "route"] }).status
      = 405 := by
  decide

/-- C5, amended: the fallback route handles GET requests with the entry
document (or error body), handles HEAD identically with the body stripped,
and answers every other method with 405 Method Not Allowed. -/
theorem fallback_method_behavior (fs : Fs) (req : Request)
    (ha : isAssetRequest req = false) :
    (req.method = Method.GET → route fs req = serve_index fs) ∧
    (req.method = Method.HEAD →
      route fs req = headAdjust Method.HEAD (serve_index fs)) ∧
    (req.method ≠ Method.GET → req.method ≠ Method.HEAD →
      route fs req = methodNotAllowed) := by
  refine ⟨fun hm => route_fallback_get fs req ha hm, fun hm => ?_, fun h1 h2 => ?_⟩
  · unfold route handle
    rw [routerProg_fallback req ha]
    unfold fallbackProg
    rw [hm, if_neg (by decide), if_pos rfl, runFs_map]
    rfl
  · unfold route handle
    rw [routerProg_fallback req ha]
    unfold fallbackProg
    rw [if_neg h1, if_neg h2]
    rfl

/-- C5 witness: the amended theorem applied at a GET request and at a PUT
request on the concrete filesystem. -/
theorem fallback_method_behavior_witness :
    route fsOk { method := Method.GET, path := ["r"] } = serve_index fsOk ∧
    route fsOk { method := Method.PUT, path := ["r"] } = methodNotAllowed :=
  ⟨(fallback_method_behavior fsOk { method := Method.GET, path := ["r"] }
      (by decide)).1 rfl,
   (fallback_method_behavior fsOk { method := Method.PUT, path := ["r"] }
      (by decide)).2.2 (by decide) (by decide)⟩

/-- C6: handling a request leaves the filesystem unchanged, so handling the
same request again immediately afterwards (with no external filesystem
change) produces the identical response. -/
theorem repeated_request_same_response (fs : Fs) (req : Request) :
    (handle fs req).2.1 = fs ∧
    (handle ((handle fs req).2.1) req).1 = (handle fs req).1 := by
  refine ⟨handle_fs_unchanged fs req, ?_⟩
  rw [handle_fs_unchanged fs req]

/-- C7: the asset route only ever serves bytes of files under the assets
root: for every request `/assets/<path>` (any method, query, headers), the
response body is either empty or exactly the contents of a readable regular
file whose path extends `dist/assets`. Traversal components (`..`) can never
escape the root, since path validation rejects them. -/
theorem assets_route_confined_to_root (fs : Fs) (m : Method)
    (rest : List String) (q : Option String) (hs : List (String × String)) :
    (route fs { method := m, path := "assets" :: rest,
                query := q, headers := hs }).body = [] ∨
    ∃ suffix bs, fs.lookup (assetsRoot ++ suffix) = some (Entry.file bs true) ∧
      (route fs { method := m, path := "assets" :: rest,
                  query := q, headers := hs }).body = bs := by
  unfold route handle routerProg
  dsimp only
  rw [if_pos rfl]
  unfold serveDirProg
  split
  · rcases hv : validateComponents rest with _ | comps
    · simp [hv, runFs, notFoundResponse]
    · rcases hl : fs.lookup (assetsRoot ++ comps) with _ | e
      · simp [hv, hl, runFs, notFoundResponse]
      · rcases e with ⟨bs, rd⟩ | _
        · cases rd
          · simp [hv, hl, runFs, internalErrorResponse]
          · by_cases hm : m = Method.HEAD
            · simp [hv, hl, runFs, headAdjust, hm]
            · refine Or.inr ⟨comps, bs, hl, ?_⟩
              simp [hv, hl, runFs, headAdjust, hm]
        · rcases hl2 : fs.lookup (assetsRoot ++ (comps ++ ["index.html"]))
            with _ | e2
          · simp [hv, hl, hl2, runFs, notFoundResponse]
          · rcases e2 with ⟨bs2, rd2⟩ | _
            · cases rd2
              · simp [hv, hl, hl2, runFs, internalErrorResponse]
              · by_cases hm : m = Method.HEAD
                · simp [hv, hl, hl2, runFs, headAdjust, hm]
                · refine Or.inr ⟨comps ++ ["index.html"], bs2, hl2, ?_⟩
                  simp [hv, hl, hl2, runFs, headAdjust, hm]
            · simp [hv, hl, hl2, runFs, notFoundResponse]
  · simp [runFs, methodNotAllowed]

/-- C8: request handling never writes: the filesystem after handling any
request equals the filesystem before, every operation in the trace is a read,
and a fallback-routed GET performs exactly one read, of the fixed entry
document path `dist/index.html`. -/
theorem handling_read_only_single_index_read (fs : Fs) (req : Request) :
    (handle fs req).2.1 = fs ∧
    ((handle fs req).2.2).all FsOp.isRead = true ∧
    (isAssetRequest req = false → req.method = Method.GET →
      (handle fs req).2.2 = [FsOp.read indexPath]) :=
  ⟨handle_fs_unchanged fs req,
   (runFs_readOnly (routerProg_readOnly req) fs).2,
   fun ha hm => handle_fallback_get_trace fs req ha hm⟩

/-- C8 witness: a concrete fallback GET leaves the filesystem unchanged and
its trace is exactly one read of `dist/index.html`. -/
theorem handling_read_only_single_index_read_witness :
    (handle fsOk { method := Method.GET, path := ["spa"] }).2.1 = fsOk ∧
    (handle fsOk { method := Method.GET, path := ["spa"] }).2.2 =
      [FsOp.read indexPath] :=
  ⟨(handling_read_only_single_index_read fsOk
      { method := Method.GET, path := ["spa"] }).1,
   (handling_read_only_single_index_read fsOk
      { method := Method.GET, path := ["spa"] }).2.2 (by decide) rfl⟩

/-- C9: when the entry document exists and is readable but its bytes are not
valid UTF-8, `serve_index`'s `read_to_string` fails and the response is the
fixed error document — its body is the error message, not the file's bytes. -/
theorem invalid_utf8_index_error_body (fs : Fs) (bs : List Nat)
    (hf : fs.lookup indexPath = some (Entry.file bs true))
    (hv : utf8Valid bs = false) :
    serve_index fs = indexErrorResponse ∧ (serve_index fs).body ≠ bs := by
  have hr : readIndex fs = none := by
    unfold readIndex
    rw [hf]
    simp [hv]
  have he : serve_index fs = indexErrorResponse := by
    rw [serve_index_eq, hr]
  refine ⟨he, ?_⟩
  rw [he]
  intro hb
  have hval : utf8Valid errorBody = true := by decide
  have hb2 : errorBody = bs := hb
  rw [hb2, hv] at hval
  exact Bool.false_ne_true hval

/-- C9 witness: the single byte `0xFF` as `dist/index.html` yields the error
document, whose body differs from the file's bytes. -/
theorem invalid_utf8_index_error_body_witness :
    serve_index fsBadIndex = indexErrorResponse ∧
    (serve_index fsBadIndex).body ≠ [0xFF] :=
  invalid_utf8_index_error_body fsBadIndex [0xFF] (by decide) (by decide)

/-- C10: the fallback handler takes no input from the request: any two
fallback-routed GET requests handled under the same filesystem receive the
identical response, whatever their paths, queries, or headers. -/
theorem fallback_response_request_independent (fs : Fs) (r1 r2 : Request)
    (h1 : isAssetRequest r1 = false) (h2 : isAssetRequest r2 = false)
    (m1 : r1.method = Method.GET) (m2 : r2.method = Method.GET) :
    route fs r1 = route fs r2 := by
  rw [route_fallback_get fs r1 h1 m1, route_fallback_get fs r2 h2 m2]

/-- C10 witness: two concrete requests differing in path, query and headers
receive the same response. -/
theorem fallback_response_request_independent_witness :
    route fsOk { method := Method.GET, path := ["a"], query := some "x=1",
                 headers := [("X-Test", "1")] } =
    route fsOk { method := Method.GET, path := ["b", "c"] } :=
  fallback_response_request_independent fsOk
    { method := Method.GET, path := ["a"], query := some "x=1",
      headers := [("X-Test", "1")] }
    { method := Method.GET, path := ["b", "c"] }
    (by decide) (by decide) rfl rfl

end TensorLogic
